import Mathlib

/-!
Shallow embedding of the einsum equation compiler in `src/einsum.h`
(`Einsum<ComputeType, IntType, kMaxNumModes_>`), adapted from the
CUDALibrarySamples cuTENSOR example.

The constructor (`Einsum::Einsum`, lines 88-251) parses an equation string
together with the operand shapes and strides into mode lists, extents and
strides; `getOutputShape` (lines 255-265) exposes the resolved output
extents; `execute` (lines 276-382) dispatches to either the contraction or
the reduction backend call depending on `numModesB_ > 0`.

Modelling conventions:
* the equation is a `List Char`; `std::string::find` becomes a first-index
  search returning `Option Nat` (`none` models `npos`);
* machine integers (extents, strides) are `Int`; sizes and counts are `Nat`;
* exceptions thrown by the constructor become `Except Err State`;
* accesses past the end of a `std::vector` (via `operator[]`) or past the
  end of one of the fixed `std::array<_, kMaxNumModes_>` member buffers are
  undefined behaviour in the source; the embedding makes each such access an
  explicit error (`oobStrideRead` for reading `A_strides`/`B_strides` past
  their size at lines 216/223, `oobModesCWrite` for writing
  `modesC_`/`extentC_` past `kMaxNumModes_` in the loop at line 226);
* a cell of `extentC_` that the lookup loop (lines 226-248) never writes is
  indeterminate in the source; the embedding stores `extentC` as
  `List (Option Int)` with `none` for such a never-written cell.
-/

namespace Einsum

/-- Errors surfaced by the constructor.  The first six mirror the
`TORCH_CHECK` / `throw std::runtime_error` sites at lines 101, 149, 152,
156, 159 and 187 of `einsum.h`; the last two make the out-of-bounds
accesses described in the file header explicit. -/
inductive Err where
  | broadcastNotSupported
  | mismatchA
  | mismatchB
  | tooManyA
  | tooManyB
  | tooManyOutput
  | oobStrideRead
  | oobModesCWrite
  deriving DecidableEq, Repr

/-- First index at which `pat` occurs as a contiguous substring, mirroring
`std::string::find`; `none` models `std::string::npos`. -/
def findSubstrIdx (pat : List Char) : List Char → Option Nat
  | [] => if pat.isEmpty then some 0 else none
  | c :: rest =>
      if pat.isPrefixOf (c :: rest) then some 0
      else (findSubstrIdx pat rest).map (· + 1)

/-- `equation.find("->")`, line 98. -/
def arrowIdx (eqn : List Char) : Option Nat := findSubstrIdx ['-', '>'] eqn

/-- `equation.find(",")`, line 99. -/
def commaIdx (eqn : List Char) : Option Nat := findSubstrIdx [','] eqn

/-- `equation.find("...") != npos`, lines 100-101. -/
def hasDots (eqn : List Char) : Bool := (findSubstrIdx ['.', '.', '.'] eqn).isSome

/-- `a_end`, lines 112-113: for an implicit output it is the comma position
(or the string size without a comma); for an explicit output it is the
comma position (or the arrow position without a comma). -/
def aEnd (eqn : List Char) : Nat :=
  match arrowIdx eqn with
  | none => (commaIdx eqn).getD eqn.length
  | some ap => (commaIdx eqn).getD ap

/-- The raw character range `[a_start, a_end)` scanned for operand A's
modes, lines 111-113 and 122. -/
def segA (eqn : List Char) : List Char := eqn.take (aEnd eqn)

/-- The raw character range `[b_start, b_end)` scanned for operand B's
modes, lines 114-115 and 131: empty when no comma is present, otherwise
from the character after the comma up to the arrow (explicit output) or
the end of the string (implicit output). -/
def segB (eqn : List Char) : List Char :=
  match commaIdx eqn with
  | none => []
  | some cp =>
    match arrowIdx eqn with
    | none => eqn.drop (cp + 1)
    | some ap => (eqn.take ap).drop (cp + 1)

/-- The raw character range `[c_start, c_end)` scanned for the output
modes, lines 116-117 and 140: empty for an implicit output, otherwise
everything after the `->`. -/
def segC (eqn : List Char) : List Char :=
  match arrowIdx eqn with
  | none => []
  | some ap => eqn.drop (ap + 2)

/-- The mode-extraction loops at lines 120-145: non-space characters of the
segment, in order, with the loop guard `numModes < kMaxNumModes_ + 2`
stopping after `kMax + 2` modes. -/
def extractModes (k : Nat) (seg : List Char) : List Char :=
  (seg.filter (fun c => c ≠ ' ')).take (k + 2)

/-- The linear `found` scan inside `copyModesIf` (lines 173-179) and the
extent-lookup loops (lines 231-247). -/
def modeFound (m : Char) : List Char → Bool
  | [] => false
  | c :: rest => if c = m then true else modeFound m rest

/-- The two `copyModesIf` passes for an implicit output (lines 199-201):
modes of A absent from B, then modes of B absent from A, each occurrence in
its original operand order. -/
def implicitCand (mA mB : List Char) : List Char :=
  mA.filter (fun c => !(modeFound c mB)) ++ mB.filter (fun c => !(modeFound c mA))

/-- `std::sort` on the derived implicit output modes (line 202): ascending
order of the character values. -/
def sortChars (l : List Char) : List Char :=
  List.insertionSort (fun a b => a ≤ b) l

/-- First extent paired with a matching mode symbol, scanning in index
order like the loops at lines 231-239 and 240-247. -/
def firstExt (m : Char) : List (Char × Int) → Option Int
  | [] => none
  | (c, e) :: rest => if c = m then some e else firstExt m rest

/-- Extent resolution for one output mode (lines 230-247): operand A's
descriptor is searched first, operand B's only if the mode was not found in
A; `none` when the mode occurs in neither (the loop then leaves
`extentC_[i]` unwritten). -/
def lookupExt (m : Char) (mA : List Char) (eA : List Int)
    (mB : List Char) (eB : List Int) : Option Int :=
  match firstExt m (mA.zip eA) with
  | some v => some v
  | none => firstExt m (mB.zip eB)

/-- The data members of `Einsum` (lines 404-417) that the constructor
fills: counts, the initialisation flag, and the per-operand mode / extent /
stride buffers restricted to their used lengths. -/
structure State where
  numModesA : Nat
  numModesB : Nat
  numModesC : Nat
  isInitialized : Bool
  modesA : List Char
  modesB : List Char
  modesC : List Char
  extentA : List Int
  extentB : List Int
  extentC : List (Option Int)
  stridesA : List Int
  stridesB : List Int
  deriving DecidableEq, Repr

/-- The constructor body after mode extraction, lines 147-251, operating on
the already-extracted mode lists `mA`, `mB`, `mC`.  `usesB` is
`comma_pos != npos` (line 105), `hasArrow` is `arrow_pos != npos` (negation
of `isImplicit`, line 102).  `nB` reflects line 106-109: `numModesB_` is
reset to `0` when no comma is present.  The checks appear in source order:
the two mode/shape mismatch checks (147-153), the two operand rank checks
(154-160), the implicit-output overflow check inside `copyModesIf`
(184-188), then the stride-copy loops (212-224) whose vector reads can go
out of bounds, then the output loop (226-248) whose buffer writes can go
out of bounds, and finally the assembled, initialised object (250). -/
def constructCore (k : Nat) (usesB hasArrow : Bool) (mA mB mC : List Char)
    (As Ast Bs Bst : List Int) : Except Err State :=
  let nB : Nat := if usesB then Bs.length else 0
  if mA.length ≠ As.length then .error .mismatchA
  else if mB.length ≠ nB then .error .mismatchB
  else if k < As.length then .error .tooManyA
  else if k < nB then .error .tooManyB
  else if hasArrow = false ∧ k < (implicitCand mA mB).length then .error .tooManyOutput
  else
    let modesC : List Char := if hasArrow then mC else sortChars (implicitCand mA mB)
    if Ast.length < As.length then .error .oobStrideRead
    else if Bst.length < nB then .error .oobStrideRead
    else if k < modesC.length then .error .oobModesCWrite
    else
      let eB : List Int := if usesB then Bs else []
      .ok { numModesA := As.length, numModesB := nB, numModesC := modesC.length,
            isInitialized := true,
            modesA := mA, modesB := mB, modesC := modesC,
            extentA := As, extentB := eB,
            extentC := modesC.map (fun m => lookupExt m mA As mB eB),
            stridesA := Ast.take As.length, stridesB := Bst.take nB }

/-- `Einsum::Einsum(equation, A_shape, A_strides, B_shape, B_strides)`,
lines 88-251: the broadcast check (100-101), the separator searches
(98-99), mode extraction from the three segments (111-145), then
`constructCore`. -/
def construct (k : Nat) (eqn : List Char) (As Ast Bs Bst : List Int) :
    Except Err State :=
  if hasDots eqn then .error .broadcastNotSupported
  else
    constructCore k (commaIdx eqn).isSome (arrowIdx eqn).isSome
      (extractModes k (segA eqn)) (extractModes k (segB eqn)) (extractModes k (segC eqn))
      As Ast Bs Bst

/-- The object state established by the member-initialiser list alone
(lines 93-96), before the constructor body has run: counts taken from the
shapes, `numModesC_ = 0`, `isInitialized_ = false`, buffers indeterminate
(modelled empty). -/
def initialState (As Bs : List Int) : State :=
  { numModesA := As.length, numModesB := Bs.length, numModesC := 0,
    isInitialized := false,
    modesA := [], modesB := [], modesC := [],
    extentA := [], extentB := [], extentC := [],
    stridesA := [], stridesB := [] }

/-- `Einsum::getOutputShape`, lines 255-265: empty unless initialised,
otherwise `extentC_.at(i)` for `i < numModesC_`. -/
def getOutputShape (s : State) : List (Option Int) :=
  if s.isInitialized = false then []
  else (List.range s.numModesC).map (fun i => s.extentC.getD i none)

/-- The two backend operations `execute` can issue: the contraction call
(lines 315-369) and the reduction call (lines 370-380). -/
inductive Op where
  | contraction
  | reduction
  deriving DecidableEq, Repr

/-- The dispatch decision of `Einsum::execute` (lines 283 and 315): `none`
models the early `return false` of an uninitialised object; otherwise the
contraction call is issued iff `numModesB_ > 0`. -/
def dispatch (s : State) : Option Op :=
  if s.isInitialized = false then none
  else if 0 < s.numModesB then some .contraction
  else some .reduction

/-- `execute` is a `const` member function: it returns its dispatch
decision and leaves the object state unchanged (its side effects touch only
the caller-supplied device buffers). -/
def execute (s : State) : Option Op × State := (dispatch s, s)

/-! Helper lemmas about the embedding. -/

theorem modeFound_iff {m : Char} {l : List Char} : modeFound m l = true ↔ m ∈ l := by
  induction l with
  | nil => simp [modeFound]
  | cons c rest ih =>
    rw [modeFound]
    by_cases hc : c = m
    · subst hc; simp
    · rw [if_neg hc, ih, List.mem_cons]
      constructor
      · exact Or.inr
      · rintro (h | h)
        · exact absurd h.symm hc
        · exact h

theorem firstExt_eq_none {m : Char} {mA : List Char} (eA : List Int)
    (h : modeFound m mA = false) : firstExt m (mA.zip eA) = none := by
  induction mA generalizing eA with
  | nil => simp [List.zip, firstExt]
  | cons c rest ih =>
    rw [modeFound] at h
    by_cases hc : c = m
    · simp [hc] at h
    · cases eA with
      | nil => simp [List.zip, firstExt]
      | cons e es =>
        rw [if_neg hc] at h
        simpa [List.zip, firstExt, hc] using ih es h

theorem lookupExt_none {m : Char} {mA : List Char} (eA : List Int)
    {mB : List Char} (eB : List Int)
    (hA : modeFound m mA = false) (hB : modeFound m mB = false) :
    lookupExt m mA eA mB eB = none := by
  unfold lookupExt
  rw [firstExt_eq_none eA hA, firstExt_eq_none eB hB]

theorem sortChars_perm (l : List Char) : List.Perm (sortChars l) l :=
  List.perm_insertionSort _ l

theorem mem_sortChars {a : Char} {l : List Char} : a ∈ sortChars l ↔ a ∈ l :=
  (sortChars_perm l).mem_iff

theorem sortChars_pairwise (l : List Char) :
    List.Pairwise (fun a b : Char => a ≤ b) (sortChars l) :=
  List.sorted_insertionSort _ l

theorem rangeMap_getD (l : List (Option Int)) :
    (List.range l.length).map (fun i => l.getD i none) = l := by
  induction l with
  | nil => rfl
  | cons a t ih =>
    have : (fun i => (a :: t).getD (i + 1) none) = fun i => t.getD i none := by
      funext i; rfl
    calc (List.range (a :: t).length).map (fun i => (a :: t).getD i none)
        = a :: (List.range t.length).map (fun i => t.getD i none) := by
          rw [List.length_cons, List.range_succ_eq_map, List.map_cons, List.map_map]
          simp [Function.comp_def]
      _ = a :: t := by rw [ih]

theorem findSubstrIdx_isSome_of_infix {pat l : List Char}
    (h : List.IsInfix pat l) : (findSubstrIdx pat l).isSome = true := by
  induction l with
  | nil =>
    have : pat = [] := by simpa using h
    simp [findSubstrIdx, this]
  | cons c rest ih =>
    rw [findSubstrIdx]
    rcases List.infix_cons_iff.mp h with hp | hi
    · rw [if_pos (List.isPrefixOf_iff_prefix.mpr hp)]; rfl
    · by_cases hb : pat.isPrefixOf (c :: rest)
      · rw [if_pos hb]; rfl
      · rw [if_neg hb]
        simpa using ih hi

set_option maxHeartbeats 2000000 in
/-- Inversion of a successful run of the constructor body: every validation
passed and the resulting object is exactly the one assembled at line 250. -/
theorem constructCore_ok {k : Nat} {usesB hasArrow : Bool} {mA mB mC : List Char}
    {As Ast Bs Bst : List Int} {e : State}
    (h : constructCore k usesB hasArrow mA mB mC As Ast Bs Bst = .ok e) :
    e = { numModesA := As.length,
          numModesB := if usesB then Bs.length else 0,
          numModesC := (if hasArrow then mC else sortChars (implicitCand mA mB)).length,
          isInitialized := true,
          modesA := mA, modesB := mB,
          modesC := if hasArrow then mC else sortChars (implicitCand mA mB),
          extentA := As, extentB := if usesB then Bs else [],
          extentC := (if hasArrow then mC else sortChars (implicitCand mA mB)).map
            (fun m => lookupExt m mA As mB (if usesB then Bs else [])),
          stridesA := Ast.take As.length,
          stridesB := Bst.take (if usesB then Bs.length else 0) } ∧
      mA.length = As.length ∧
      mB.length = (if usesB then Bs.length else 0) ∧
      As.length ≤ k ∧
      (if usesB then Bs.length else 0) ≤ k ∧
      As.length ≤ Ast.length ∧
      (if usesB then Bs.length else 0) ≤ Bst.length ∧
      (if hasArrow then mC else sortChars (implicitCand mA mB)).length ≤ k := by
  cases usesB <;> cases hasArrow <;>
    (simp only [constructCore] at h
     simp only [Bool.false_eq_true, Bool.true_eq_false, eq_self_iff_true, if_true, if_false,
       false_and, true_and, and_false, and_true] at h ⊢
     split_ifs at h with h1 h2 h3 h4 h5 h6 h7 h8 <;>
       first
         | exact Except.noConfusion h
         | (simp only [Except.ok.injEq] at h
            subst h
            exact ⟨by simp, by omega, by omega, by omega, by omega, by omega, by omega, by omega⟩))

deriving instance DecidableEq for Except

/-- Inversion at the `construct` level: a successful construction implies
the broadcast check passed and the core ran successfully on the extracted
mode lists. -/
theorem construct_ok {k : Nat} {eqn : List Char} {As Ast Bs Bst : List Int} {e : State}
    (h : construct k eqn As Ast Bs Bst = .ok e) :
    hasDots eqn = false ∧
    constructCore k (commaIdx eqn).isSome (arrowIdx eqn).isSome
      (extractModes k (segA eqn)) (extractModes k (segB eqn)) (extractModes k (segC eqn))
      As Ast Bs Bst = .ok e := by
  rw [construct] at h
  by_cases hd : hasDots eqn = true
  · rw [if_pos hd] at h
    exact Except.noConfusion h
  · rw [if_neg hd] at h
    exact ⟨by simpa using hd, h⟩

end Einsum

open Einsum

/-- C7: for every equation containing the substring `...` and all operand
shapes and strides, construction fails with the broadcast ParseError
(`TORCH_CHECK` at lines 100-101), before any other processing. -/
theorem C7_theorem (k : Nat) (eqn : List Char) (As Ast Bs Bst : List Int)
    (h : List.IsInfix ['.', '.', '.'] eqn) :
    construct k eqn As Ast Bs Bst = .error .broadcastNotSupported := by
  have hd : hasDots eqn = true := by
    rw [hasDots]
    exact findSubstrIdx_isSome_of_infix h
  rw [construct, if_pos hd]

/-- C7 witness: the equation `"i...j"` with shape (2,) fails with the
broadcast error. -/
theorem C7_witness :
    construct 4 ['i', '.', '.', '.', 'j'] [2] [1] [] [] = .error .broadcastNotSupported :=
  C7_theorem 4 ['i', '.', '.', '.', 'j'] [2] [1] [] [] ⟨['i'], ['j'], rfl⟩

/-- C3 as stated is false: with no comma in the equation, `numModesB_` is
reset to 0 (lines 106-109), so `B_strides` is never read even though
`B_shape` is non-empty and `B_strides` is shorter than it — construction
succeeds without any out-of-bounds read. -/
theorem C3_counterexample :
    construct 4 ['a'] [2] [1] [3] [] ≠ .error .oobStrideRead ∧
    ([] : List Int).length < ([3] : List Int).length := by
  exact ⟨by decide, by decide⟩

set_option maxHeartbeats 2000000 in
/-- C3 (amended): the constructor reads `A_strides[i]` for `i <
len(A_shape)` and `B_strides[i]` for `i < numModesB_` (which is
`len(B_shape)` only when a comma is present); under the total embedding
the out-of-bounds read branch is reachable (second conjunct: valid
equation, non-empty shape, defaulted empty strides), and it is unreachable
under the precondition `len(strides) ≥ len(shape)` for each operand (first
conjunct). -/
theorem C3_theorem :
    (∀ (k : Nat) (eqn : List Char) (As Ast Bs Bst : List Int),
        As.length ≤ Ast.length → Bs.length ≤ Bst.length →
        construct k eqn As Ast Bs Bst ≠ .error .oobStrideRead) ∧
    construct 4 ['i'] [2] [] [] [] = .error .oobStrideRead := by
  constructor
  · intro k eqn As Ast Bs Bst hA hB h
    rw [construct] at h
    by_cases hd : hasDots eqn = true
    · rw [if_pos hd] at h
      exact absurd h (by simp)
    · rw [if_neg hd] at h
      revert h
      generalize (commaIdx eqn).isSome = usesB
      generalize (arrowIdx eqn).isSome = hasArrow
      generalize extractModes k (segA eqn) = mA
      generalize extractModes k (segB eqn) = mB
      generalize extractModes k (segC eqn) = mC
      intro h
      cases usesB <;> cases hasArrow <;>
        (simp only [constructCore, Bool.false_eq_true, Bool.true_eq_false, eq_self_iff_true,
           if_true, if_false, false_and, true_and, and_false, and_true] at h
         split_ifs at h with h1 h2 h3 h4 h5 h6 h7 h8 <;> first | omega | simp at h)
  · rfl

/-- C3 witness for the universally quantified conjunct: with strides at
least as long as the shapes, construction of `"ab"` does not hit the
out-of-bounds stride read. -/
theorem C3_witness :
    construct 4 ['a', 'b'] [2, 3] [7, 8] [] [] ≠ .error .oobStrideRead :=
  C3_theorem.1 4 ['a', 'b'] [2, 3] [7, 8] [] [] (by decide) (by decide)

/-- C6 as stated is false: for operand B without a comma in the equation,
the extracted B mode count (0) differs from `len(B_shape)` (1), yet
construction succeeds because `numModesB_` is reset to 0 before the
mismatch check (lines 106-109 and 151-153). -/
theorem C6_counterexample :
    (extractModes 4 (segB ['i'])).length = 0 ∧
    ([7] : List Int).length = 1 ∧
    (construct 4 ['i'] [2] [1] [7] []).isOk = true := by
  refine ⟨by decide, by decide, by decide⟩

/-- C6 (amended): provided the equation does not contain `...` (that case
fails earlier with the broadcast error), an extracted-mode-count/shape
mismatch for operand A fails with the A-mismatch ParseError (lines
147-150), and — when a comma is present, so that `numModesB_` keeps
`len(B_shape)` — a mismatch for operand B fails with the B-mismatch
ParseError (lines 151-153); without a comma, B's shape is ignored. -/
theorem C6_theorem (k : Nat) (eqn : List Char) (As Ast Bs Bst : List Int)
    (hd : hasDots eqn = false) :
    ((extractModes k (segA eqn)).length ≠ As.length →
      construct k eqn As Ast Bs Bst = .error .mismatchA) ∧
    ((extractModes k (segA eqn)).length = As.length →
      (commaIdx eqn).isSome = true →
      (extractModes k (segB eqn)).length ≠ Bs.length →
      construct k eqn As Ast Bs Bst = .error .mismatchB) := by
  rw [construct, if_neg (by rw [hd]; exact Bool.false_ne_true)]
  constructor
  · intro hne
    rw [constructCore]
    simp only []
    rw [if_pos hne]
  · intro ha hc hb
    rw [constructCore]
    simp only []
    rw [if_neg (by omega), hc, if_pos rfl, if_pos hb]

/-- C6 witness: equation `"ijk"` with A shape (2,3) fails with the
mode/shape mismatch ParseError, as in the spec's example. -/
theorem C6_witness :
    construct 4 ['i', 'j', 'k'] [2, 3] [] [] [] = .error .mismatchA :=
  (C6_theorem 4 ['i', 'j', 'k'] [2, 3] [] [] [] (by decide)).1 (by decide)

/-- C5: for every successfully constructed Einsum with an explicit output
(`->` at index `p`), the resolved output mode list is exactly the raw
substring after the arrow with whitespace removed, in its original order
(lines 206-210), and its length is the output mode count. -/
theorem C5_theorem (k : Nat) (eqn : List Char) (As Ast Bs Bst : List Int) (e : State)
    (p : Nat)
    (hok : construct k eqn As Ast Bs Bst = .ok e) (hp : arrowIdx eqn = some p) :
    e.modesC = (eqn.drop (p + 2)).filter (fun c => c ≠ ' ') ∧
    e.numModesC = e.modesC.length := by
  obtain ⟨hd, hcore⟩ := construct_ok hok
  obtain ⟨he, -, -, -, -, -, -, hlen⟩ := constructCore_ok hcore
  have harr : (arrowIdx eqn).isSome = true := by rw [hp]; rfl
  subst he
  rw [harr] at hlen
  simp only [eq_self_iff_true, if_true] at hlen
  rw [extractModes, List.length_take] at hlen
  have hseg : segC eqn = eqn.drop (p + 2) := by rw [segC, hp]
  constructor
  · show (if (arrowIdx eqn).isSome = true then extractModes k (segC eqn)
        else sortChars (implicitCand (extractModes k (segA eqn)) (extractModes k (segB eqn)))) =
      (eqn.drop (p + 2)).filter (fun c => c ≠ ' ')
    rw [harr]
    simp only [eq_self_iff_true, if_true]
    rw [extractModes, hseg]
    rw [hseg] at hlen
    exact List.take_of_length_le (by omega)
  · rfl

/-- C5 witness: `"a->a"` over shape (5,) resolves output modes to the raw
post-arrow substring `"a"`. -/
theorem C5_witness :
    (⟨1, 0, 1, true, ['a'], [], ['a'], [5], [], [some 5], [1], []⟩ : State).modesC =
      (['a', '-', '>', 'a'].drop 3).filter (fun c => c ≠ ' ') :=
  (C5_theorem 2 ['a', '-', '>', 'a'] [5] [1] [] []
    ⟨1, 0, 1, true, ['a'], [], ['a'], [5], [], [some 5], [1], []⟩ 1
    (by decide) (by decide)).1

/-- C2: for every successfully constructed Einsum with implicit output, the
resolved output modes are the ascending sort of the modes of A absent from
B followed by the modes of B absent from A (lines 196-204); the result is
sorted, and a mode occurring in both operands never appears in it. -/
theorem C2_theorem (k : Nat) (eqn : List Char) (As Ast Bs Bst : List Int) (e : State)
    (hok : construct k eqn As Ast Bs Bst = .ok e) (himp : arrowIdx eqn = none) :
    e.modesC = sortChars (implicitCand e.modesA e.modesB) ∧
    List.Pairwise (fun a b : Char => a ≤ b) e.modesC ∧
    ∀ m : Char, m ∈ e.modesA → m ∈ e.modesB → m ∉ e.modesC := by
  obtain ⟨hd, hcore⟩ := construct_ok hok
  obtain ⟨he, -⟩ := constructCore_ok hcore
  have harr : (arrowIdx eqn).isSome = false := by rw [himp]; rfl
  subst he
  have hmodes : (if (arrowIdx eqn).isSome = true then extractModes k (segC eqn)
      else sortChars (implicitCand (extractModes k (segA eqn)) (extractModes k (segB eqn)))) =
      sortChars (implicitCand (extractModes k (segA eqn)) (extractModes k (segB eqn))) := by
    rw [harr]
    simp
  refine ⟨hmodes, ?_, ?_⟩
  · show List.Pairwise _ (if (arrowIdx eqn).isSome = true then _ else _)
    rw [hmodes]
    exact sortChars_pairwise _
  · intro m hmA hmB
    show m ∉ (if (arrowIdx eqn).isSome = true then _ else _)
    rw [hmodes, mem_sortChars]
    intro hmem
    rcases List.mem_append.mp hmem with hf | hf
    · have := (List.mem_filter.mp hf).2
      rw [Bool.not_eq_eq_eq_not, Bool.not_true] at this
      exact absurd (modeFound_iff.mpr hmB) (by rw [this]; exact Bool.false_ne_true)
    · have := (List.mem_filter.mp hf).2
      rw [Bool.not_eq_eq_eq_not, Bool.not_true] at this
      exact absurd (modeFound_iff.mpr hmA) (by rw [this]; exact Bool.false_ne_true)

/-- C2 witness: `"ij,jk"` over shapes (2,3) and (3,4) resolves implicit
output modes to the sorted non-contracted modes `"ik"`. -/
theorem C2_witness :
    (⟨2, 2, 2, true, ['i', 'j'], ['j', 'k'], ['i', 'k'], [2, 3], [3, 4],
        [some 2, some 4], [1, 1], [1, 1]⟩ : State).modesC =
      sortChars (implicitCand ['i', 'j'] ['j', 'k']) :=
  (C2_theorem 4 ['i', 'j', ',', 'j', 'k'] [2, 3] [1, 1] [3, 4] [1, 1]
    ⟨2, 2, 2, true, ['i', 'j'], ['j', 'k'], ['i', 'k'], [2, 3], [3, 4],
        [some 2, some 4], [1, 1], [1, 1]⟩
    (by decide) (by decide)).1

/-- C1 as stated is false: for the explicit output mode `x`, which occurs
in neither operand of `"ij,jk->x"`, construction completes successfully —
no ValidationError is raised (the lookup loop at lines 226-248 has no
failure branch). -/
theorem C1_counterexample :
    (arrowIdx ['i', 'j', ',', 'j', 'k', '-', '>', 'x']).isSome = true ∧
    'x' ∉ extractModes 4 (segA ['i', 'j', ',', 'j', 'k', '-', '>', 'x']) ∧
    'x' ∉ extractModes 4 (segB ['i', 'j', ',', 'j', 'k', '-', '>', 'x']) ∧
    (construct 4 ['i', 'j', ',', 'j', 'k', '-', '>', 'x'] [2, 3] [1, 1] [3, 4] [1, 1]).isOk
      = true :=
  ⟨by decide, by decide, by decide, by decide⟩

/-- C1 (amended): when an explicit output mode appears in neither operand's
mode list, construction still completes successfully, and that output
extent is left unwritten (indeterminate; `none` in the embedding) — the
code has no "unresolvable output mode" failure. -/
theorem C1_theorem (k : Nat) (eqn : List Char) (As Ast Bs Bst : List Int) (e : State)
    (i : Nat) (m : Char)
    (hok : construct k eqn As Ast Bs Bst = .ok e)
    (harr : (arrowIdx eqn).isSome = true)
    (hm : e.modesC.get? i = some m)
    (hA : m ∉ e.modesA) (hB : m ∉ e.modesB) :
    e.isInitialized = true ∧ e.extentC.get? i = some none := by
  obtain ⟨hd, hcore⟩ := construct_ok hok
  obtain ⟨he, -⟩ := constructCore_ok hcore
  subst he
  dsimp only at hm hA hB ⊢
  refine ⟨rfl, ?_⟩
  have hfA : modeFound m (extractModes k (segA eqn)) = false := by
    cases hmf : modeFound m (extractModes k (segA eqn))
    · rfl
    · exact absurd (modeFound_iff.mp hmf) hA
  have hfB : modeFound m (extractModes k (segB eqn)) = false := by
    cases hmf : modeFound m (extractModes k (segB eqn))
    · rfl
    · exact absurd (modeFound_iff.mp hmf) hB
  rw [List.get?_map, hm, Option.map_some', lookupExt_none As _ hfA hfB]

/-- C1 witness: for `"ij,jk->x"` over shapes (2,3) and (3,4), construction
succeeds and the extent of the unresolvable output mode `x` is left
indeterminate. -/
theorem C1_witness :
    (⟨2, 2, 1, true, ['i', 'j'], ['j', 'k'], ['x'], [2, 3], [3, 4], [none],
        [1, 1], [1, 1]⟩ : State).isInitialized = true ∧
    (⟨2, 2, 1, true, ['i', 'j'], ['j', 'k'], ['x'], [2, 3], [3, 4], [none],
        [1, 1], [1, 1]⟩ : State).extentC.get? 0 = some none :=
  C1_theorem 4 ['i', 'j', ',', 'j', 'k', '-', '>', 'x'] [2, 3] [1, 1] [3, 4] [1, 1]
    ⟨2, 2, 1, true, ['i', 'j'], ['j', 'k'], ['x'], [2, 3], [3, 4], [none], [1, 1], [1, 1]⟩
    0 'x' (by decide) (by decide) (by decide) (by decide) (by decide)

/-- C4 as stated is false: for the equation `"i,->i"` a comma is present,
yet the second operand contributes zero modes (`B_shape` empty), so
`execute` dispatches the reduction call (`numModesB_ > 0` is the real
test, lines 105-109 and 315). -/
theorem C4_counterexample :
    (commaIdx ['i', ',', '-', '>', 'i']).isSome = true ∧
    (construct 4 ['i', ',', '-', '>', 'i'] [2] [1] [] []).toOption.map dispatch =
      some (some Op.reduction) :=
  ⟨by decide, by decide⟩

/-- C4 (amended): for every successfully constructed Einsum, `execute`
dispatches the contraction call iff a comma is present AND operand B's
shape is non-empty (equivalently `numModesB_ > 0`), and the reduction call
otherwise; comma presence alone does not determine the choice. -/
theorem C4_theorem (k : Nat) (eqn : List Char) (As Ast Bs Bst : List Int) (e : State)
    (hok : construct k eqn As Ast Bs Bst = .ok e) :
    (dispatch e = some Op.contraction ↔ ((commaIdx eqn).isSome = true ∧ Bs ≠ [])) ∧
    (dispatch e = some Op.reduction ↔ ¬((commaIdx eqn).isSome = true ∧ Bs ≠ [])) := by
  obtain ⟨hd, hcore⟩ := construct_ok hok
  obtain ⟨he, -⟩ := constructCore_ok hcore
  subst he
  by_cases hu : (commaIdx eqn).isSome = true <;> by_cases hb : Bs = [] <;>
    simp_all [dispatch, List.length_pos]

/-- C4 witness: `"ij,jk"` over non-empty B shape dispatches the
contraction call. -/
theorem C4_witness :
    dispatch (⟨2, 2, 2, true, ['i', 'j'], ['j', 'k'], ['i', 'k'], [2, 3], [3, 4],
        [some 2, some 4], [1, 1], [1, 1]⟩ : State) = some Op.contraction :=
  (C4_theorem 4 ['i', 'j', ',', 'j', 'k'] [2, 3] [1, 1] [3, 4] [1, 1]
    ⟨2, 2, 2, true, ['i', 'j'], ['j', 'k'], ['i', 'k'], [2, 3], [3, 4],
        [some 2, some 4], [1, 1], [1, 1]⟩
    (by decide)).1.mpr ⟨by decide, by decide⟩

/-- C8 as stated is false: inserting a whitespace character inside operand
A's segment of `"a...b"` (giving `"a. ..b"`) splits the `...` substring,
so the original equation fails the broadcast check while the
space-inserted one constructs successfully — the construction result
changes. -/
theorem C8_counterexample :
    ['a', '.', ' ', '.', '.', 'b'] =
      (['a', '.', '.', '.', 'b'].take 2) ++ [' '] ++ (['a', '.', '.', '.', 'b'].drop 2) ∧
    construct 6 ['a', '.', '.', '.', 'b'] [1, 1, 1, 1, 1] [0, 0, 0, 0, 0] [] [] ≠
      construct 6 ['a', '.', ' ', '.', '.', 'b'] [1, 1, 1, 1, 1] [0, 0, 0, 0, 0] [] [] :=
  ⟨by decide, by decide⟩

/-- C8 (amended): whitespace inside the operand/output segments is ignored
during mode extraction, so any two equations agreeing on broadcast-marker
presence, comma presence, arrow presence, and the whitespace-stripped
contents of the three segments — in particular two equations differing
only by whitespace that does not create or destroy an occurrence of `...`
or `->` — extract the same mode sequences and construct identically. -/
theorem C8_theorem (k : Nat) (eq1 eq2 : List Char) (As Ast Bs Bst : List Int)
    (h1 : hasDots eq1 = hasDots eq2)
    (h2 : (commaIdx eq1).isSome = (commaIdx eq2).isSome)
    (h3 : (arrowIdx eq1).isSome = (arrowIdx eq2).isSome)
    (h4 : (segA eq1).filter (fun c => c ≠ ' ') = (segA eq2).filter (fun c => c ≠ ' '))
    (h5 : (segB eq1).filter (fun c => c ≠ ' ') = (segB eq2).filter (fun c => c ≠ ' '))
    (h6 : (segC eq1).filter (fun c => c ≠ ' ') = (segC eq2).filter (fun c => c ≠ ' ')) :
    extractModes k (segA eq1) = extractModes k (segA eq2) ∧
    extractModes k (segB eq1) = extractModes k (segB eq2) ∧
    extractModes k (segC eq1) = extractModes k (segC eq2) ∧
    construct k eq1 As Ast Bs Bst = construct k eq2 As Ast Bs Bst := by
  have e4 : extractModes k (segA eq1) = extractModes k (segA eq2) := by
    rw [extractModes, extractModes, h4]
  have e5 : extractModes k (segB eq1) = extractModes k (segB eq2) := by
    rw [extractModes, extractModes, h5]
  have e6 : extractModes k (segC eq1) = extractModes k (segC eq2) := by
    rw [extractModes, extractModes, h6]
  refine ⟨e4, e5, e6, ?_⟩
  rw [construct, construct, h1, h2, h3, e4, e5, e6]

/-- C8 witness: inserting spaces inside the operand segments of
`"ij,jk->ik"` leaves the construction result unchanged. -/
theorem C8_witness :
    construct 4 ['i', 'j', ',', 'j', 'k', '-', '>', 'i', 'k'] [2, 3] [1, 1] [3, 4] [1, 1] =
      construct 4 ['i', ' ', 'j', ',', 'j', 'k', ' ', '-', '>', 'i', 'k']
        [2, 3] [1, 1] [3, 4] [1, 1] :=
  (C8_theorem 4 ['i', 'j', ',', 'j', 'k', '-', '>', 'i', 'k']
    ['i', ' ', 'j', ',', 'j', 'k', ' ', '-', '>', 'i', 'k'] [2, 3] [1, 1] [3, 4] [1, 1]
    (by decide) (by decide) (by decide) (by decide) (by decide) (by decide)).2.2.2

/-- C9: `getOutputShape` returns the empty sequence whenever the object is
not initialised (in particular on the pre-construction state); after a
successful construction it returns exactly the stored output extents, in
output-mode order (each entry the extent looked up for the corresponding
output mode); and since `execute` is `const`, its result is unchanged by
executing — repeated calls on the same state trivially agree because the
function is pure. -/
theorem C9_theorem (k : Nat) (eqn : List Char) (As Ast Bs Bst : List Int) (e : State)
    (hok : construct k eqn As Ast Bs Bst = .ok e) :
    (∀ s : State, s.isInitialized = false → getOutputShape s = []) ∧
    getOutputShape (initialState As Bs) = [] ∧
    getOutputShape e = e.extentC ∧
    getOutputShape e = e.modesC.map
      (fun m => lookupExt m e.modesA e.extentA e.modesB e.extentB) ∧
    execute e = (dispatch e, e) ∧
    getOutputShape ((execute e).2) = getOutputShape e := by
  obtain ⟨hd, hcore⟩ := construct_ok hok
  obtain ⟨he, -⟩ := constructCore_ok hcore
  have hemp : ∀ s : State, s.isInitialized = false → getOutputShape s = [] := by
    intro s hs
    rw [getOutputShape, if_pos hs]
  have hout : getOutputShape e = e.extentC := by
    subst he
    rw [getOutputShape]
    dsimp only
    rw [if_neg (by simp)]
    rw [show ((if (arrowIdx eqn).isSome = true then extractModes k (segC eqn)
        else sortChars (implicitCand (extractModes k (segA eqn))
          (extractModes k (segB eqn)))).length)
      = ((if (arrowIdx eqn).isSome = true then extractModes k (segC eqn)
        else sortChars (implicitCand (extractModes k (segA eqn))
          (extractModes k (segB eqn)))).map
          (fun m => lookupExt m (extractModes k (segA eqn)) As (extractModes k (segB eqn))
            (if (commaIdx eqn).isSome = true then Bs else []))).length
      from (List.length_map _ _).symm]
    exact rangeMap_getD _
  refine ⟨hemp, hemp _ rfl, hout, ?_, rfl, ?_⟩
  · rw [hout]
    subst he
    rfl
  · rw [show (execute e).2 = e from rfl]

/-- C9 witness: on the state constructed from `"a->a"` the output shape
equals the stored output extents, and on the pre-construction state it is
empty. -/
theorem C9_witness :
    getOutputShape (⟨1, 0, 1, true, ['a'], [], ['a'], [5], [], [some 5], [1], []⟩ : State) =
      (⟨1, 0, 1, true, ['a'], [], ['a'], [5], [], [some 5], [1], []⟩ : State).extentC ∧
    getOutputShape (initialState [5] []) = [] :=
  ⟨(C9_theorem 2 ['a', '-', '>', 'a'] [5] [1] [] []
      ⟨1, 0, 1, true, ['a'], [], ['a'], [5], [], [some 5], [1], []⟩ (by decide)).2.2.1,
   (C9_theorem 2 ['a', '-', '>', 'a'] [5] [1] [] []
      ⟨1, 0, 1, true, ['a'], [], ['a'], [5], [], [some 5], [1], []⟩ (by decide)).2.1⟩

/-- C10: in the implicit-output case, once the earlier validations pass,
deriving more than `kMaxNumModes` output modes fails with the "too many
modes in output tensor" ParseError thrown inside `copyModesIf` (lines
181-189); and every successfully constructed Einsum has an output mode
count of at most `kMaxNumModes` (for an explicit output this holds because
exceeding the bound would write past the fixed-size output buffers, which
the embedding surfaces as a construction failure). -/
theorem C10_theorem (k : Nat) (eqn : List Char) (As Ast Bs Bst : List Int) :
    ((arrowIdx eqn).isSome = false →
      hasDots eqn = false →
      (extractModes k (segA eqn)).length = As.length →
      (extractModes k (segB eqn)).length =
        (if (commaIdx eqn).isSome then Bs.length else 0) →
      As.length ≤ k →
      (if (commaIdx eqn).isSome then Bs.length else 0) ≤ k →
      k < (implicitCand (extractModes k (segA eqn)) (extractModes k (segB eqn))).length →
      construct k eqn As Ast Bs Bst = .error .tooManyOutput) ∧
    (∀ e : State, construct k eqn As Ast Bs Bst = .ok e → e.numModesC ≤ k) := by
  constructor
  · intro harr hd hma hmb hka hkb hover
    rw [construct, if_neg (by rw [hd]; exact Bool.false_ne_true)]
    simp only [constructCore]
    rw [if_neg (by omega), if_neg (by omega), if_neg (by omega), if_neg (by omega),
      if_pos ⟨harr, hover⟩]
  · intro e hok
    obtain ⟨hd2, hcore⟩ := construct_ok hok
    obtain ⟨he, -, -, -, -, -, -, hlen⟩ := constructCore_ok hcore
    subst he
    exact hlen

/-- C10 witness: with `kMaxNumModes = 3`, the implicit equation `"ab,cd"`
derives 4 output modes and fails with the too-many-output-modes error,
while a successful construction (`"a"`, shape (2,)) has an output mode
count within the bound. -/
theorem C10_witness :
    construct 3 ['a', 'b', ',', 'c', 'd'] [1, 1] [1, 1] [1, 1] [1, 1] =
      .error .tooManyOutput ∧
    (⟨1, 0, 1, true, ['a'], [], ['a'], [2], [], [some 2], [1], []⟩ : State).numModesC ≤ 3 :=
  ⟨(C10_theorem 3 ['a', 'b', ',', 'c', 'd'] [1, 1] [1, 1] [1, 1] [1, 1]).1
      (by decide) (by decide) (by decide) (by decide) (by decide) (by decide) (by decide),
   (C10_theorem 3 ['a'] [2] [1] [] []).2
      ⟨1, 0, 1, true, ['a'], [], ['a'], [2], [], [some 2], [1], []⟩ (by decide)⟩
